import Mathlib

/-!
Verification of the item-enrichment orchestrator of the AteWell grocery-list
application (`src/components/GroceryList.tsx`).

The component state is embedded shallowly: the React `useState` fields become
an `AppState` record, every `setItems(prevItems => ...)` updater becomes a pure
function on `List GroceryItem`, and the two asynchronous fetches are split into
their synchronous dispatch phase (`...Start`, which also records the outgoing
network request as an `Effect`) and their completion phase (`...Complete`,
which takes the decoded response as a parameter).  JavaScript optional fields
are `Option`s and JavaScript string truthiness is the `jsTruthy` predicate
(`undefined`/`null` and `""` are falsy).
-/

namespace AteWell

/-- The `GroceryItem` record of `GroceryList.tsx`.  Optional TypeScript fields
default to `none`/`false`, matching the falsiness of an absent property. -/
structure GroceryItem where
  id : String
  name : String
  isEditing : Bool
  healthSuggestion : Option String := none
  suggestionReason : Option String := none
  showingSuggestion : Bool := false
  isLoadingSuggestion : Bool := false
  imageUrl : Option String := none
  isLoadingImage : Bool := false
deriving DecidableEq

/-- The component-level `useState` fields that the orchestrator reads or
writes (presentation-only state such as the zoomed image is omitted). -/
structure AppState where
  items : List GroceryItem
  inputText : String
  editText : String
  apiKey : Option String
  pexelsApiKey : Option String
  isApiKeyModalVisible : Bool
deriving DecidableEq

/-- JavaScript truthiness of a nullable string: `null`/`undefined` and the
empty string are falsy. -/
def jsTruthy : Option String → Bool
  | none => false
  | some s => !(s == "")

/-- Characters dropped by JavaScript `String.prototype.trim`, embedded via
`Char.isWhitespace` on the underlying character list (kept kernel-reducible so
concrete states evaluate by `decide`). -/
def trimChars (s : List Char) : List Char :=
  ((s.dropWhile Char.isWhitespace).reverse.dropWhile Char.isWhitespace).reverse

/-- JavaScript `s.trim()`. -/
def jsTrim (s : String) : String := String.mk (trimChars s.data)

/-- JavaScript `s.split("\n")` on the underlying character list: consecutive
separators produce empty pieces and the empty string yields `[""]`. -/
def splitOnNewline : List Char → List (List Char)
  | [] => [[]]
  | c :: rest =>
    match splitOnNewline rest with
    | [] => [[c]]
    | l :: ls => if c = '\n' then [] :: l :: ls else (c :: l) :: ls

/-- JavaScript `s.split("\n")`. -/
def jsSplitLines (s : String) : List String := (splitOnNewline s.data).map String.mk

/-- JavaScript `array.join(" ")`. -/
def jsJoinSpace : List String → String
  | [] => ""
  | [s] => s
  | s :: rest => s ++ " " ++ jsJoinSpace rest

/-- Outgoing network requests recorded by the dispatch phases. -/
inductive Effect where
  | suggestionRequest (itemId itemName : String)
  | imageRequest (itemId itemName : String)
deriving DecidableEq

/-- Decoded outcome of the Pexels image fetch: `failure` is a thrown error or
non-ok status, `success u` carries `data.photos?.[0]?.src?.small`. -/
inductive ImageResponse where
  | failure
  | success (imageUrl : Option String)
deriving DecidableEq

/-- Decoded outcome of the OpenRouter suggestion fetch: `failure` is a thrown
error or non-ok status, `success c` carries
`data.choices?.[0]?.message?.content`. -/
inductive SuggestionResponse where
  | failure
  | success (content : Option String)
deriving DecidableEq

/-- The id-addressed update shape used by every enrichment patch in the
source: `prevItems.map(item => item.id === itemId ? f(item) : item)`. -/
def patchItem (itemId : String) (f : GroceryItem → GroceryItem)
    (items : List GroceryItem) : List GroceryItem :=
  items.map (fun item => if item.id == itemId then f item else item)

/-- The inline suggestion parser of `getHealthSuggestion`: split on line
breaks, drop blank lines, first line trimmed is the alternative
(`lines[0]?.trim()`), the rest joined with one space and trimmed is the
reason. -/
def parseSuggestion (suggestion : String) : Option String × String :=
  let lines := (jsSplitLines suggestion).filter (fun line => jsTrim line != "")
  let healthSuggestion := lines.head?.map (fun line => jsTrim line)
  let suggestionReason :=
    if lines.length > 1 then jsTrim (jsJoinSpace (lines.drop 1)) else ""
  (healthSuggestion, suggestionReason)

/-- Dispatch phase of `getItemImage`: skip entirely when the Pexels key is
missing, otherwise mark the item as loading and send the search request. -/
def getItemImageStart (s : AppState) (itemId itemName : String) :
    AppState × List Effect :=
  if jsTruthy s.pexelsApiKey then
    ({ s with items :=
        patchItem itemId (fun item => { item with isLoadingImage := true }) s.items },
      [Effect.imageRequest itemId itemName])
  else (s, [])

/-- Completion phase of `getItemImage`: on failure reset the loading flag, on
success set the image if a truthy URL was extracted, otherwise only reset the
loading flag (any previous image is kept). -/
def getItemImageComplete (itemId : String) (resp : ImageResponse)
    (items : List GroceryItem) : List GroceryItem :=
  match resp with
  | ImageResponse.failure =>
    patchItem itemId (fun item => { item with isLoadingImage := false }) items
  | ImageResponse.success imageUrl =>
    if jsTruthy imageUrl then
      patchItem itemId
        (fun item => { item with imageUrl := imageUrl, isLoadingImage := false }) items
    else
      patchItem itemId (fun item => { item with isLoadingImage := false }) items

/-- Dispatch phase of `getHealthSuggestion`: when the OpenRouter key is
missing, show the API-key modal and return without dispatching; otherwise mark
the item as loading and send the chat-completion request. -/
def getHealthSuggestionStart (s : AppState) (itemId itemName : String) :
    AppState × List Effect :=
  if jsTruthy s.apiKey then
    ({ s with items :=
        patchItem itemId (fun item => { item with isLoadingSuggestion := true }) s.items },
      [Effect.suggestionRequest itemId itemName])
  else
    ({ s with isApiKeyModalVisible := true }, [])

/-- Completion phase of `getHealthSuggestion`: on failure reset the loading
flag; on success, only when the extracted content is truthy (`if (suggestion)`)
parse it and patch the item — an absent or empty content applies no patch at
all. -/
def getHealthSuggestionComplete (itemId : String) (resp : SuggestionResponse)
    (items : List GroceryItem) : List GroceryItem :=
  match resp with
  | SuggestionResponse.failure =>
    patchItem itemId (fun item => { item with isLoadingSuggestion := false }) items
  | SuggestionResponse.success none => items
  | SuggestionResponse.success (some content) =>
    if content == "" then items
    else
      let parsed := parseSuggestion content
      patchItem itemId
        (fun item =>
          { item with
            healthSuggestion := parsed.1,
            suggestionReason := some parsed.2,
            showingSuggestion := true,
            isLoadingSuggestion := false }) items

/-- The item appended by `addItem`: only `id`, `name` and `isEditing` are
given; every enrichment field is absent/false. -/
def mkNewItem (id name : String) : GroceryItem :=
  { id := id, name := name, isEditing := false }

/-- `addItem`: no-op when the input trims to empty; otherwise append a new
item whose id is `Date.now().toString()` (the `now` parameter), clear the
input box, and dispatch both enrichment fetches for the new item. -/
def addItem (s : AppState) (now : Nat) : AppState × List Effect :=
  if jsTrim s.inputText == "" then (s, [])
  else
    let newItemId := toString now
    let newItemName := jsTrim s.inputText
    let s1 : AppState :=
      { s with items := s.items ++ [mkNewItem newItemId newItemName], inputText := "" }
    let r1 := getHealthSuggestionStart s1 newItemId newItemName
    let r2 := getItemImageStart r1.1 newItemId newItemName
    (r2.1, r1.2 ++ r2.2)

/-- `deleteItem` (after the confirmation dialog): remove every item with the
given id. -/
def deleteItem (items : List GroceryItem) (id : String) : List GroceryItem :=
  items.filter (fun item => item.id != id)

/-- `startEditing`: the target item gets `isEditing := true`, every other item
gets `isEditing := false`; the edit box is preloaded with the target's name. -/
def startEditing (s : AppState) (id : String) : AppState :=
  { s with
    items := s.items.map (fun item =>
      if item.id == id then { item with isEditing := true }
      else { item with isEditing := false }),
    editText :=
      (match s.items.find? (fun item => item.id == id) with
        | some item => item.name
        | none => s.editText) }

/-- `saveEdit`: no-op when the edit text trims to empty; otherwise rename the
target item, close its editor and clear the edit box. -/
def saveEdit (s : AppState) (id : String) : AppState :=
  if jsTrim s.editText == "" then s
  else
    { s with
      items := s.items.map (fun item =>
        if item.id == id then
          { item with name := jsTrim s.editText, isEditing := false }
        else item),
      editText := "" }

/-- `dismissSuggestion`: hide the suggestion of the target item; the fetched
value itself is kept. -/
def dismissSuggestion (items : List GroceryItem) (id : String) : List GroceryItem :=
  patchItem id (fun item => { item with showingSuggestion := false }) items

/-- `replaceFoodItem` (accept suggestion): when the found item has a truthy
suggestion, rename it to the suggested alternative, clear the suggestion, its
reason and the image, hide the suggestion box, and invoke `getItemImage` for
the new name; otherwise do nothing. -/
def replaceFoodItem (s : AppState) (id : String) : AppState × List Effect :=
  match s.items.find? (fun i => i.id == id) with
  | none => (s, [])
  | some item =>
    match item.healthSuggestion with
    | none => (s, [])
    | some newName =>
      if newName == "" then (s, [])
      else
        let s1 : AppState := { s with items := s.items.map (fun i =>
          if i.id == id && jsTruthy i.healthSuggestion then
            { i with
              name := newName,
              healthSuggestion := none,
              suggestionReason := none,
              showingSuggestion := false,
              imageUrl := none }
          else i) }
        getItemImageStart s1 id newName

/-- Component state right after the mount effect read the stored keys: empty
list, empty inputs, keys kept only when truthy, and the API-key modal shown
when either key is missing. -/
def initialState (storedApiKey storedPexelsKey : Option String) : AppState :=
  { items := [],
    inputText := "",
    editText := "",
    apiKey := if jsTruthy storedApiKey then storedApiKey else none,
    pexelsApiKey := if jsTruthy storedPexelsKey then storedPexelsKey else none,
    isApiKeyModalVisible := !(jsTruthy storedApiKey) || !(jsTruthy storedPexelsKey) }

/-- States reachable through the component's operations.  `P` restricts which
suggestion-fetch responses the environment may deliver and `Q` restricts which
`Date.now()` values the clock may return to `addItem`; instantiating both with
the trivial predicate gives the unrestricted reachable set. -/
inductive ReachableW (P : SuggestionResponse → Prop) (Q : AppState → Nat → Prop) :
    AppState → Prop
  | init (storedApiKey storedPexelsKey : Option String) :
      ReachableW P Q (initialState storedApiKey storedPexelsKey)
  | addItem {s : AppState} (now : Nat) (h : ReachableW P Q s) (hQ : Q s now) :
      ReachableW P Q (addItem s now).1
  | deleteItem {s : AppState} (id : String) (h : ReachableW P Q s) :
      ReachableW P Q { s with items := deleteItem s.items id }
  | startEditing {s : AppState} (id : String) (h : ReachableW P Q s) :
      ReachableW P Q (startEditing s id)
  | saveEdit {s : AppState} (id : String) (h : ReachableW P Q s) :
      ReachableW P Q (saveEdit s id)
  | dismissSuggestion {s : AppState} (id : String) (h : ReachableW P Q s) :
      ReachableW P Q { s with items := dismissSuggestion s.items id }
  | replaceFoodItem {s : AppState} (id : String) (h : ReachableW P Q s) :
      ReachableW P Q (replaceFoodItem s id).1
  | suggestionStart {s : AppState} (id name : String) (h : ReachableW P Q s) :
      ReachableW P Q (getHealthSuggestionStart s id name).1
  | imageStart {s : AppState} (id name : String) (h : ReachableW P Q s) :
      ReachableW P Q (getItemImageStart s id name).1
  | suggestionComplete {s : AppState} (id : String) (resp : SuggestionResponse)
      (h : ReachableW P Q s) (hP : P resp) :
      ReachableW P Q { s with items := getHealthSuggestionComplete id resp s.items }
  | imageComplete {s : AppState} (id : String) (resp : ImageResponse)
      (h : ReachableW P Q s) :
      ReachableW P Q { s with items := getItemImageComplete id resp s.items }
  | setInput {s : AppState} (t : String) (h : ReachableW P Q s) :
      ReachableW P Q { s with inputText := t }
  | setEditText {s : AppState} (t : String) (h : ReachableW P Q s) :
      ReachableW P Q { s with editText := t }
  | setKeys {s : AppState} (k p : Option String) (h : ReachableW P Q s) :
      ReachableW P Q { s with apiKey := k, pexelsApiKey := p, isApiKeyModalVisible := false }

/-- Unrestricted reachability: any responses, any clock values. -/
def Reachable : AppState → Prop :=
  ReachableW (fun _ => True) (fun _ _ => True)

/-- Clock assumption under which id generation is collision-free: the add
happens at a millisecond whose string differs from every current item id. -/
def freshAdd (s : AppState) (now : Nat) : Prop :=
  toString now ∉ s.items.map (fun it => it.id)

/-- Reachability under the collision-free-clock assumption. -/
def ReachableFresh : AppState → Prop :=
  ReachableW (fun _ => True) freshAdd

/-- A suggestion response is blank-free when its content, if truthy, still
contains at least one non-blank line after splitting. -/
def contentOk : SuggestionResponse → Prop
  | SuggestionResponse.success (some c) =>
      c = "" ∨ (jsSplitLines c).filter (fun l => jsTrim l != "") ≠ []
  | _ => True

/-- Reachability when every delivered suggestion response is blank-free. -/
def ReachableParsed : AppState → Prop :=
  ReachableW contentOk (fun _ _ => True)

/-- The number of items currently in editing mode. -/
def editingCount (items : List GroceryItem) : Nat :=
  items.countP (fun it => it.isEditing)

/-- Pairwise-distinct item ids. -/
def idsNodup (items : List GroceryItem) : Prop :=
  (items.map (fun it => it.id)).Nodup

/-- The §3 invariant: a visible suggestion is a present suggestion. -/
def invariantSV (items : List GroceryItem) : Prop :=
  ∀ it ∈ items, it.showingSuggestion = true → it.healthSuggestion ≠ none

def sugFields (it : GroceryItem) :
    String × String × Bool × Option String × Option String × Bool × Bool :=
  (it.id, it.name, it.isEditing, it.healthSuggestion, it.suggestionReason,
    it.showingSuggestion, it.isLoadingSuggestion)

def imgFields (it : GroceryItem) : String × String × Bool × Option String × Bool :=
  (it.id, it.name, it.isEditing, it.imageUrl, it.isLoadingImage)

def survivorItem : GroceryItem := { id := "1", name := "Milk", isEditing := false }

def stuckPendingItem : GroceryItem :=
  { id := "1", name := "Milk", isEditing := false, isLoadingSuggestion := true }

def blankInputState : AppState :=
  { items := [survivorItem], inputText := "   ", editText := "",
    apiKey := some "k", pexelsApiKey := some "p", isApiKeyModalVisible := false }

/-- The parser exactly as the claim words it: first non-empty line (as is) is
the alternative, remaining non-empty lines joined with a single space (no
outer trim) are the reason. -/
def parseSuggestionClaimSpec (text : String) : Option String × String :=
  let lines := (jsSplitLines text).filter (fun line => jsTrim line != "")
  (lines.head?, jsJoinSpace (lines.drop 1))

/-- The parser as amended: both the alternative and the joined reason are
trimmed of surrounding whitespace. -/
def parseSuggestionAmendedSpec (text : String) : Option String × String :=
  let lines := (jsSplitLines text).filter (fun line => jsTrim line != "")
  (lines.head?.map (fun line => jsTrim line), jsTrim (jsJoinSpace (lines.drop 1)))

def acceptItem : GroceryItem :=
  { id := "1", name := "Peanut butter", isEditing := false,
    healthSuggestion := some "Almond butter",
    suggestionReason := some "Less saturated fat.",
    showingSuggestion := true }

def acceptNoKeyState : AppState :=
  { items := [acceptItem], inputText := "", editText := "",
    apiKey := some "k", pexelsApiKey := none, isApiKeyModalVisible := false }

def acceptKeyState : AppState :=
  { items := [acceptItem], inputText := "", editText := "",
    apiKey := some "k", pexelsApiKey := some "p", isApiKeyModalVisible := false }

def noSuggestionState : AppState :=
  { items := [survivorItem], inputText := "", editText := "",
    apiKey := some "k", pexelsApiKey := some "p", isApiKeyModalVisible := false }

/-- The Item-Store invariant: ids are pairwise distinct and at most one item
is in editing mode. -/
def StoreInv (items : List GroceryItem) : Prop :=
  idsNodup items ∧ editingCount items ≤ 1

def collideState1 : AppState :=
  (addItem { (initialState (some "k") (some "p")) with inputText := "Milk" } 0).1

def collideState2 : AppState :=
  (addItem { collideState1 with inputText := "Bread" } 0).1

def collideState3 : AppState := startEditing collideState2 "0"

def editedItem : GroceryItem :=
  { id := "0", name := "Milk", isEditing := true, isLoadingSuggestion := true,
    isLoadingImage := true }

def editChain : AppState := startEditing collideState1 "0"

def imageOnlyKeyState : AppState :=
  { items := [], inputText := "Milk", editText := "",
    apiKey := none, pexelsApiKey := some "p", isApiKeyModalVisible := false }

def suggestionOnlyKeyState : AppState :=
  { items := [], inputText := "", editText := "",
    apiKey := some "k", pexelsApiKey := none, isApiKeyModalVisible := false }

def freshAddState : AppState :=
  { items := [survivorItem], inputText := " Bread ", editText := "",
    apiKey := some "k", pexelsApiKey := none, isApiKeyModalVisible := false }

def blankChain : AppState :=
  { collideState1 with
    items := getHealthSuggestionComplete "0" (SuggestionResponse.success (some " "))
      collideState1.items }

def parsedChain : AppState :=
  { collideState1 with
    items := getHealthSuggestionComplete "0"
      (SuggestionResponse.success (some "Oat milk\nLess sugar."))
      collideState1.items }

theorem patchItem_map_eq {α : Type} (p : GroceryItem → α) (tid : String)
    (f : GroceryItem → GroceryItem) (h : ∀ it, p (f it) = p it)
    (l : List GroceryItem) : (patchItem tid f l).map p = l.map p := by
  simp only [patchItem, List.map_map]
  apply List.map_congr_left
  intro a _
  by_cases hc : a.id = tid
  · simp [hc, h]
  · simp [hc]

theorem patchItem_absent (tid : String) (f : GroceryItem → GroceryItem)
    (l : List GroceryItem) (h : ∀ it ∈ l, it.id ≠ tid) :
    patchItem tid f l = l := by
  unfold patchItem
  have h2 : l.map (fun item => if item.id == tid then f item else item)
      = l.map (fun item => item) := by
    apply List.map_congr_left
    intro a ha
    simp [h a ha]
  simp only [h2, List.map_id']

theorem patchItem_comm (i j : String) (f g : GroceryItem → GroceryItem)
    (hf : ∀ it, (f it).id = it.id) (hg : ∀ it, (g it).id = it.id)
    (hfg : ∀ it, f (g it) = g (f it)) (l : List GroceryItem) :
    patchItem i f (patchItem j g l) = patchItem j g (patchItem i f l) := by
  simp only [patchItem, List.map_map]
  apply List.map_congr_left
  intro a _
  by_cases hj : a.id = j
  · by_cases hi : a.id = i
    · subst hj; subst hi
      simp [hf, hg, hfg]
    · subst hj
      simp [hf, hg, hi]
  · by_cases hi : a.id = i
    · subst hi
      simp [hf, hg, hj]
    · simp [hi, hj]

theorem imageComplete_sugFields (tid : String) (ri : ImageResponse)
    (l : List GroceryItem) :
    (getItemImageComplete tid ri l).map sugFields = l.map sugFields := by
  cases ri with
  | failure =>
    simp only [getItemImageComplete]
    refine patchItem_map_eq _ _ _ ?_ l
    intro it; rfl
  | success u =>
    by_cases h : jsTruthy u = true
    · simp only [getItemImageComplete, if_pos h]
      refine patchItem_map_eq _ _ _ ?_ l
      intro it; rfl
    · simp only [getItemImageComplete, if_neg h]
      refine patchItem_map_eq _ _ _ ?_ l
      intro it; rfl

theorem suggestionComplete_imgFields (tid : String) (rs : SuggestionResponse)
    (l : List GroceryItem) :
    (getHealthSuggestionComplete tid rs l).map imgFields = l.map imgFields := by
  cases rs with
  | failure =>
    simp only [getHealthSuggestionComplete]
    refine patchItem_map_eq _ _ _ ?_ l
    intro it; rfl
  | success c =>
    cases c with
    | none => rfl
    | some c =>
      by_cases h : c = ""
      · simp [getHealthSuggestionComplete, h]
      · have hb : ¬((c == "") = true) := by simpa using h
        simp only [getHealthSuggestionComplete, if_neg hb]
        refine patchItem_map_eq _ _ _ ?_ l
        intro it; rfl

theorem completes_comm (tid : String) (ri : ImageResponse) (rs : SuggestionResponse)
    (l : List GroceryItem) :
    getItemImageComplete tid ri (getHealthSuggestionComplete tid rs l)
      = getHealthSuggestionComplete tid rs (getItemImageComplete tid ri l) := by
  have key : ∀ f g : GroceryItem → GroceryItem,
      (∀ it, (f it).id = it.id) → (∀ it, (g it).id = it.id) →
      (∀ it, f (g it) = g (f it)) →
      patchItem tid f (patchItem tid g l) = patchItem tid g (patchItem tid f l) :=
    fun f g hf hg hfg => patchItem_comm tid tid f g hf hg hfg l
  cases ri with
  | failure =>
    cases rs with
    | failure =>
      simp only [getItemImageComplete, getHealthSuggestionComplete]
      refine key _ _ ?_ ?_ ?_ <;> intro it <;> rfl
    | success c =>
      cases c with
      | none => rfl
      | some c =>
        by_cases h : c = ""
        · simp [getHealthSuggestionComplete, h]
        · have hb : ¬((c == "") = true) := by simpa using h
          simp only [getItemImageComplete, getHealthSuggestionComplete, if_neg hb]
          refine key _ _ ?_ ?_ ?_ <;> intro it <;> rfl
  | success u =>
    by_cases hu : jsTruthy u = true
    · cases rs with
      | failure =>
        simp only [getItemImageComplete, getHealthSuggestionComplete, if_pos hu]
        refine key _ _ ?_ ?_ ?_ <;> intro it <;> rfl
      | success c =>
        cases c with
        | none => rfl
        | some c =>
          by_cases h : c = ""
          · simp [getHealthSuggestionComplete, h]
          · have hb : ¬((c == "") = true) := by simpa using h
            simp only [getItemImageComplete, getHealthSuggestionComplete,
              if_pos hu, if_neg hb]
            refine key _ _ ?_ ?_ ?_ <;> intro it <;> rfl
    · cases rs with
      | failure =>
        simp only [getItemImageComplete, getHealthSuggestionComplete, if_neg hu]
        refine key _ _ ?_ ?_ ?_ <;> intro it <;> rfl
      | success c =>
        cases c with
        | none => rfl
        | some c =>
          by_cases h : c = ""
          · simp [getHealthSuggestionComplete, h]
          · have hb : ¬((c == "") = true) := by simpa using h
            simp only [getItemImageComplete, getHealthSuggestionComplete,
              if_neg hu, if_neg hb]
            refine key _ _ ?_ ?_ ?_ <;> intro it <;> rfl

/-- Claim C1: the patch applied on image-fetch completion alters only the
image-axis fields (`imageUrl`, `isLoadingImage`) and leaves every
suggestion-axis field (and `id`, `name`, `isEditing`) unchanged; the patch
applied on suggestion-fetch completion alters only the suggestion-axis fields
and leaves every image-axis field unchanged; the two completion patches
commute, so after both complete each axis reflects the outcome of its own
fetch regardless of which completed first. -/
theorem claim1_enrichment_patches_commute
    (items : List GroceryItem) (tid : String) (ri : ImageResponse)
    (rs : SuggestionResponse) :
    (getItemImageComplete tid ri items).map sugFields = items.map sugFields
    ∧ (getHealthSuggestionComplete tid rs items).map imgFields = items.map imgFields
    ∧ getItemImageComplete tid ri (getHealthSuggestionComplete tid rs items)
        = getHealthSuggestionComplete tid rs (getItemImageComplete tid ri items)
    ∧ (getItemImageComplete tid ri (getHealthSuggestionComplete tid rs items)).map imgFields
        = (getItemImageComplete tid ri items).map imgFields
    ∧ (getHealthSuggestionComplete tid rs (getItemImageComplete tid ri items)).map sugFields
        = (getHealthSuggestionComplete tid rs items).map sugFields := by
  refine ⟨imageComplete_sugFields tid ri items, suggestionComplete_imgFields tid rs items,
    completes_comm tid ri rs items, ?_, ?_⟩
  · rw [completes_comm]
    exact suggestionComplete_imgFields tid rs (getItemImageComplete tid ri items)
  · rw [← completes_comm]
    exact imageComplete_sugFields tid ri (getHealthSuggestionComplete tid rs items)

/-- Claim C2: applying an enrichment-completion patch addressed to an id that
no item in the collection carries (for example because the item was deleted
while the fetch was in flight) leaves the collection exactly unchanged — no
item is resurrected, none is created, and the patch functions are total, so
no error is raised. -/
theorem claim2_patch_absent_id_noop
    (items : List GroceryItem) (tid : String) (ri : ImageResponse)
    (rs : SuggestionResponse) (h : ∀ it ∈ items, it.id ≠ tid) :
    getItemImageComplete tid ri items = items
    ∧ getHealthSuggestionComplete tid rs items = items := by
  constructor
  · cases ri with
    | failure => exact patchItem_absent tid _ items h
    | success u =>
      by_cases hu : jsTruthy u = true
      · simp only [getItemImageComplete, if_pos hu]
        exact patchItem_absent tid _ items h
      · simp only [getItemImageComplete, if_neg hu]
        exact patchItem_absent tid _ items h
  · cases rs with
    | failure => exact patchItem_absent tid _ items h
    | success c =>
      cases c with
      | none => rfl
      | some c =>
        by_cases hc : c = ""
        · simp [getHealthSuggestionComplete, hc]
        · have hb : ¬((c == "") = true) := by simpa using hc
          simp only [getHealthSuggestionComplete, if_neg hb]
          exact patchItem_absent tid _ items h

theorem claim2_witness :
    (∀ it ∈ [survivorItem], it.id ≠ "2")
    ∧ getItemImageComplete "2" (ImageResponse.success (some "url")) [survivorItem]
        = [survivorItem]
    ∧ getHealthSuggestionComplete "2" (SuggestionResponse.success (some "Oat milk"))
        [survivorItem] = [survivorItem] := by
  have h : ∀ it ∈ [survivorItem], it.id ≠ "2" := by decide
  exact ⟨h,
    (claim2_patch_absent_id_noop [survivorItem] "2"
      (ImageResponse.success (some "url"))
      (SuggestionResponse.success (some "Oat milk")) h).1,
    (claim2_patch_absent_id_noop [survivorItem] "2"
      (ImageResponse.success (some "url"))
      (SuggestionResponse.success (some "Oat milk")) h).2⟩

/-- Claim C3 (code-bug evidence): on an HTTP-success suggestion response
whose extracted text content is absent or empty, `getHealthSuggestion`
applies no patch at all — for an item whose `isLoadingSuggestion` is `true`,
the collection is returned unchanged, so the pending flag is never reset,
contrary to the claim (and the spec), which require the success patch to set
`suggestionPending` to `false` as a valid "no suggestion" outcome. -/
theorem claim3_empty_content_leaves_pending_stuck :
    getHealthSuggestionComplete "1" (SuggestionResponse.success none)
      [stuckPendingItem] = [stuckPendingItem]
    ∧ getHealthSuggestionComplete "1" (SuggestionResponse.success (some ""))
      [stuckPendingItem] = [stuckPendingItem]
    ∧ stuckPendingItem.isLoadingSuggestion = true := by
  exact ⟨rfl, by decide, rfl⟩

/-- Claim C7 counterexample: with no OpenRouter key but a configured Pexels
key (a configuration `saveApiKeys` accepts), an add shows the credential
prompt yet still dispatches the image fetch and marks the new item
`isLoadingImage = true` — the state machine is not at rest, refuting
"returns without dispatching any fetch". -/
theorem claim7_counterexample :
    jsTruthy imageOnlyKeyState.apiKey = false
    ∧ (addItem imageOnlyKeyState 0).2 = [Effect.imageRequest "0" "Milk"]
    ∧ (addItem imageOnlyKeyState 0).1.isApiKeyModalVisible = true
    ∧ (addItem imageOnlyKeyState 0).1.items.map
        (fun it => (it.isLoadingSuggestion, it.isLoadingImage)) = [(false, true)] := by
  refine ⟨rfl, by decide, by decide, by decide⟩

/-- Claim C7 amended: with no suggestion credential, `getHealthSuggestion`
shows the credential prompt (the API-key modal) and returns without
dispatching the suggestion fetch and without touching the items (so no
`suggestionPending` is set) — but the image half of an add is independent:
the add dispatches exactly the image fetch when the image credential is
configured and nothing otherwise, and leaves `isLoadingSuggestion` false on
the appended item and unchanged on every other.  With no image credential,
`getItemImage` returns the state completely unchanged — no request, no
pending flag, no prompt. -/
theorem claim7_missing_credential_amended :
    (∀ (s : AppState) (tid nm : String), jsTruthy s.apiKey = false →
      getHealthSuggestionStart s tid nm = ({ s with isApiKeyModalVisible := true }, []))
    ∧ (∀ (s : AppState) (tid nm : String), jsTruthy s.pexelsApiKey = false →
      getItemImageStart s tid nm = (s, []))
    ∧ (∀ (s : AppState) (now : Nat),
      jsTruthy s.apiKey = false → jsTrim s.inputText ≠ "" →
      (addItem s now).2
          = (if jsTruthy s.pexelsApiKey
              then [Effect.imageRequest (toString now) (jsTrim s.inputText)] else [])
      ∧ (addItem s now).1.isApiKeyModalVisible = true
      ∧ (addItem s now).1.items.map (fun it => it.isLoadingSuggestion)
          = s.items.map (fun it => it.isLoadingSuggestion) ++ [false]) := by
  refine ⟨?_, ?_, ?_⟩
  · intro s tid nm h
    simp [getHealthSuggestionStart, h]
  · intro s tid nm h
    simp [getItemImageStart, h]
  · intro s now hk1 hne
    have hat : ¬((jsTrim s.inputText == "") = true) := by simpa using hne
    have hk1f : ¬(jsTruthy s.apiKey = true) := by simp [hk1]
    by_cases hk2 : jsTruthy s.pexelsApiKey = true
    · refine ⟨?_, ?_, ?_⟩
      · simp only [addItem, if_neg hat, getHealthSuggestionStart, if_neg hk1f,
          getItemImageStart, if_pos hk2]
        rfl
      · simp only [addItem, if_neg hat, getHealthSuggestionStart, if_neg hk1f,
          getItemImageStart, if_pos hk2]
      · simp only [addItem, if_neg hat, getHealthSuggestionStart, if_neg hk1f,
          getItemImageStart, if_pos hk2]
        have hm := patchItem_map_eq (fun it => it.isLoadingSuggestion) (toString now)
          (fun item => { item with isLoadingImage := true }) (fun it => rfl)
          (s.items ++ [mkNewItem (toString now) (jsTrim s.inputText)])
        rw [hm]
        simp [mkNewItem]
    · refine ⟨?_, ?_, ?_⟩
      · simp only [addItem, if_neg hat, getHealthSuggestionStart, if_neg hk1f,
          getItemImageStart, if_neg hk2]
        simp only [Bool.not_eq_true] at hk2
        simp [hk2]
      · simp only [addItem, if_neg hat, getHealthSuggestionStart, if_neg hk1f,
          getItemImageStart, if_neg hk2]
      · simp only [addItem, if_neg hat, getHealthSuggestionStart, if_neg hk1f,
          getItemImageStart, if_neg hk2]
        simp [mkNewItem]

theorem claim7_witness :
    (jsTruthy imageOnlyKeyState.apiKey = false
      ∧ getHealthSuggestionStart imageOnlyKeyState "1" "Milk"
          = ({ imageOnlyKeyState with isApiKeyModalVisible := true }, []))
    ∧ (jsTruthy suggestionOnlyKeyState.pexelsApiKey = false
      ∧ getItemImageStart suggestionOnlyKeyState "1" "Milk"
          = (suggestionOnlyKeyState, []))
    ∧ jsTrim imageOnlyKeyState.inputText ≠ ""
    ∧ (addItem imageOnlyKeyState 0).2
        = (if jsTruthy imageOnlyKeyState.pexelsApiKey
            then [Effect.imageRequest (toString 0) (jsTrim imageOnlyKeyState.inputText)]
            else [])
    ∧ (addItem imageOnlyKeyState 0).1.isApiKeyModalVisible = true
    ∧ (addItem imageOnlyKeyState 0).1.items.map (fun it => it.isLoadingSuggestion)
        = imageOnlyKeyState.items.map (fun it => it.isLoadingSuggestion) ++ [false] := by
  have h3 := claim7_missing_credential_amended.2.2 imageOnlyKeyState 0 rfl (by decide)
  exact ⟨⟨rfl, claim7_missing_credential_amended.1 imageOnlyKeyState "1" "Milk" rfl⟩,
    ⟨rfl, claim7_missing_credential_amended.2.1 suggestionOnlyKeyState "1" "Milk" rfl⟩,
    by decide, h3.1, h3.2.1, h3.2.2⟩

/-- Claim C10: when the input text trims to the empty string, `addItem` is a
complete no-op — the state (including the collection) is unchanged and no
suggestion or image fetch is dispatched. -/
theorem claim10_add_blank_input_noop (s : AppState) (now : Nat)
    (h : jsTrim s.inputText = "") : addItem s now = (s, []) := by
  simp [addItem, h]

theorem claim10_witness :
    jsTrim blankInputState.inputText = ""
    ∧ addItem blankInputState 5 = (blankInputState, []) :=
  ⟨by decide, claim10_add_blank_input_noop blankInputState 5 (by decide)⟩

/-- Claim C8 counterexample: the source trims the first non-empty line and
trims the joined reason, while the claim, read literally, returns them
untrimmed; on the input `" Oat milk"` the code yields `"Oat milk"` but the
claim-literal parser yields `" Oat milk"`, and on `"Oat milk\n less sugar "`
the code yields reason `"less sugar"` versus the literal `" less sugar "`. -/
theorem claim8_counterexample :
    parseSuggestion " Oat milk" ≠ parseSuggestionClaimSpec " Oat milk"
    ∧ parseSuggestion " Oat milk" = (some "Oat milk", "")
    ∧ parseSuggestionClaimSpec " Oat milk" = (some " Oat milk", "")
    ∧ parseSuggestion "Oat milk\n less sugar " = (some "Oat milk", "less sugar")
    ∧ parseSuggestionClaimSpec "Oat milk\n less sugar "
        = (some "Oat milk", " less sugar ") := by
  refine ⟨by decide, by decide, by decide, by decide, by decide⟩

theorem reason_branch_collapse (lines : List String) :
    (if lines.length > 1 then jsTrim (jsJoinSpace (lines.drop 1)) else "")
      = jsTrim (jsJoinSpace (lines.drop 1)) := by
  by_cases h : lines.length > 1
  · simp [h]
  · have hd : lines.drop 1 = [] := by
      cases lines with
      | nil => rfl
      | cons a t =>
        cases t with
        | nil => rfl
        | cons b t2 => exfalso; apply h; simp
    rw [hd]
    simp [h, jsJoinSpace, jsTrim, trimChars]

/-- Claim C8 amended: the parser splits on line breaks, discards lines that
are blank after trimming, returns the first remaining line trimmed as the
alternative and the remaining lines joined with a single space and then
trimmed as the reason (empty if none remain); it is pure and total, the
documented example parses as stated, and an input with zero non-blank lines
yields no alternative. -/
theorem claim8_parser_amended :
    (∀ text, parseSuggestion text = parseSuggestionAmendedSpec text)
    ∧ parseSuggestion "Oat milk\n\nBecause it has less sugar."
        = (some "Oat milk", "Because it has less sugar.")
    ∧ parseSuggestion "" = (none, "") := by
  refine ⟨?_, by decide, rfl⟩
  intro text
  simp only [parseSuggestion, parseSuggestionAmendedSpec]
  rw [reason_branch_collapse]

theorem find_eq_of_nodup (items : List GroceryItem) (item : GroceryItem)
    (hnd : idsNodup items) (hmem : item ∈ items) :
    items.find? (fun i => i.id == item.id) = some item := by
  induction items with
  | nil => cases hmem
  | cons a t ih =>
    by_cases ha : a.id = item.id
    · rcases List.mem_cons.mp hmem with h | h
      · subst h
        simp [List.find?_cons]
      · exfalso
        simp only [idsNodup, List.map_cons, List.nodup_cons] at hnd
        apply hnd.1
        rw [ha]
        exact List.mem_map_of_mem _ h
    · have hmem2 : item ∈ t := by
        rcases List.mem_cons.mp hmem with h | h
        · exact absurd (congrArg GroceryItem.id h).symm ha
        · exact h
      have hnd2 : idsNodup t := by
        simp only [idsNodup, List.map_cons, List.nodup_cons] at hnd
        exact hnd.2
      rw [List.find?_cons]
      have : (a.id == item.id) = false := by simpa using ha
      rw [this]
      exact ih hnd2 hmem2

/-- Claim C4 amended: for an item with a present (truthy) suggestion,
`replaceFoodItem` sets its name to the suggested alternative, clears the
suggestion and its reason, sets `showingSuggestion` to `false`, clears
`imageUrl`, and invokes one image lookup for the new name — which dispatches
exactly one fetch when the image credential is configured and none otherwise
(the lookup also sets `isLoadingImage` when it dispatches; the accept patch
itself leaves `isLoadingImage` unchanged).  Every other item is untouched,
and on an item without a present suggestion the operation is a no-op. -/
theorem claim4_accept_suggestion_amended :
    (∀ (s : AppState) (item : GroceryItem) (alt : String),
      idsNodup s.items → item ∈ s.items →
      item.healthSuggestion = some alt → alt ≠ "" →
      (replaceFoodItem s item.id).2
          = (if jsTruthy s.pexelsApiKey then [Effect.imageRequest item.id alt] else [])
      ∧ ({ item with
           name := alt, healthSuggestion := none, suggestionReason := none,
           showingSuggestion := false, imageUrl := none,
           isLoadingImage := (jsTruthy s.pexelsApiKey || item.isLoadingImage) } : GroceryItem)
          ∈ (replaceFoodItem s item.id).1.items
      ∧ ∀ other ∈ s.items, other.id ≠ item.id →
          other ∈ (replaceFoodItem s item.id).1.items)
    ∧ (∀ (s : AppState) (tid : String),
        (∀ it ∈ s.items, it.id = tid → jsTruthy it.healthSuggestion = false) →
        replaceFoodItem s tid = (s, [])) := by
  constructor
  · intro s item alt hnd hmem halt hne
    have hfind := find_eq_of_nodup s.items item hnd hmem
    have hbne : ¬((alt == "") = true) := by simpa using hne
    have htr : jsTruthy item.healthSuggestion = true := by
      rw [halt]; simpa [jsTruthy] using hne
    simp only [replaceFoodItem, hfind, halt, if_neg hbne]
    by_cases hkey : jsTruthy s.pexelsApiKey = true
    · simp only [getItemImageStart, if_pos hkey]
      refine ⟨by simp [hkey], ?_, ?_⟩
      · have h1 : ({ item with
            name := alt, healthSuggestion := none,
            suggestionReason := none, showingSuggestion := false,
            imageUrl := none } : GroceryItem)
            ∈ s.items.map (fun i =>
              if i.id == item.id && jsTruthy i.healthSuggestion then
                { i with
                  name := alt, healthSuggestion := none,
                  suggestionReason := none, showingSuggestion := false,
                  imageUrl := none }
              else i) := by
          refine List.mem_map.mpr ⟨item, hmem, ?_⟩
          simp [htr]
        simp only [patchItem]
        refine List.mem_map.mpr ⟨_, h1, ?_⟩
        simp [hkey]
      · intro other hother hne2
        simp only [patchItem, List.map_map, List.mem_map]
        refine ⟨other, hother, ?_⟩
        simp [hne2]
    · simp only [getItemImageStart, if_neg hkey]
      have hkf : jsTruthy s.pexelsApiKey = false := by simpa using hkey
      refine ⟨by simp [hkf], ?_, ?_⟩
      · refine List.mem_map.mpr ⟨item, hmem, ?_⟩
        simp [htr, hkf]
      · intro other hother hne2
        exact List.mem_map.mpr ⟨other, hother, by simp [hne2]⟩
  · intro s tid hnone
    cases hf : s.items.find? (fun i => i.id == tid) with
    | none => simp [replaceFoodItem, hf]
    | some item =>
      have hmem := List.mem_of_find?_eq_some hf
      have hid : item.id = tid := by simpa using List.find?_some hf
      have hfalse := hnone item hmem hid
      cases hhs : item.healthSuggestion with
      | none => simp [replaceFoodItem, hf, hhs]
      | some v =>
        have hv : v = "" := by
          rw [hhs] at hfalse
          simpa [jsTruthy] using hfalse
        subst hv
        simp [replaceFoodItem, hf, hhs]

/-- Claim C4 counterexample: a state whose single item has a present
suggestion but whose image credential is not configured.  `replaceFoodItem`
accepts the suggestion (renames the item, clears the image) yet dispatches
zero image fetches, refuting the unconditional "triggers exactly one new
image fetch for the new name". -/
theorem claim4_counterexample :
    acceptItem ∈ acceptNoKeyState.items
    ∧ acceptItem.healthSuggestion = some "Almond butter"
    ∧ (replaceFoodItem acceptNoKeyState "1").2 = []
    ∧ (replaceFoodItem acceptNoKeyState "1").1.items.map (fun it => it.name)
        = ["Almond butter"]
    ∧ (replaceFoodItem acceptNoKeyState "1").1.items.map (fun it => it.imageUrl)
        = [none] := by
  refine ⟨by decide, rfl, by decide, by decide, by decide⟩

theorem claim4_witness :
    (idsNodup acceptKeyState.items
      ∧ acceptItem ∈ acceptKeyState.items
      ∧ acceptItem.healthSuggestion = some "Almond butter"
      ∧ "Almond butter" ≠ "")
    ∧ (replaceFoodItem acceptKeyState acceptItem.id).2
        = (if jsTruthy acceptKeyState.pexelsApiKey
            then [Effect.imageRequest acceptItem.id "Almond butter"] else [])
    ∧ replaceFoodItem noSuggestionState "1" = (noSuggestionState, []) := by
  have h1 := (claim4_accept_suggestion_amended.1 acceptKeyState acceptItem
    "Almond butter" (by unfold idsNodup; decide) (by decide) rfl (by decide))
  have h2 := claim4_accept_suggestion_amended.2 noSuggestionState "1" (by decide)
  exact ⟨⟨by unfold idsNodup; decide, by decide, rfl, by decide⟩, h1.1, h2⟩

theorem countP_map_eq (p : GroceryItem → Bool) (f : GroceryItem → GroceryItem)
    (h : ∀ it, p (f it) = p it) (l : List GroceryItem) :
    (l.map f).countP p = l.countP p := by
  induction l with
  | nil => rfl
  | cons a t ih => simp [List.countP_cons, h a, ih]

theorem countP_map_le (p : GroceryItem → Bool) (f : GroceryItem → GroceryItem)
    (h : ∀ it, p (f it) = true → p it = true) (l : List GroceryItem) :
    (l.map f).countP p ≤ l.countP p := by
  induction l with
  | nil => exact Nat.le_refl 0
  | cons a t ih =>
    simp only [List.map_cons, List.countP_cons]
    have hif : (if p (f a) then 1 else 0) ≤ (if p a then 1 else 0) := by
      by_cases hfa : p (f a) = true
      · simp [hfa, h a hfa]
      · simp only [hfa, if_false, Bool.false_eq_true]
        exact Nat.zero_le _
    exact Nat.add_le_add ih hif

theorem map_ids_eq (f : GroceryItem → GroceryItem)
    (hf : ∀ it, (f it).id = it.id) (l : List GroceryItem) :
    (l.map f).map (fun it => it.id) = l.map (fun it => it.id) := by
  simp only [List.map_map]
  apply List.map_congr_left
  intro a _
  exact hf a

theorem idsNodup_map (f : GroceryItem → GroceryItem)
    (hf : ∀ it, (f it).id = it.id) (l : List GroceryItem)
    (h : idsNodup l) : idsNodup (l.map f) := by
  unfold idsNodup
  rw [map_ids_eq f hf l]
  exact h

theorem idsNodup_filter (p : GroceryItem → Bool) (l : List GroceryItem)
    (h : idsNodup l) : idsNodup (l.filter p) := by
  unfold idsNodup at h ⊢
  exact h.sublist ((List.filter_sublist l).map (fun it => it.id))

theorem idsNodup_append_fresh (l : List GroceryItem) (x : GroceryItem)
    (h : idsNodup l) (hx : x.id ∉ l.map (fun it => it.id)) :
    idsNodup (l ++ [x]) := by
  unfold idsNodup at h ⊢
  rw [List.map_append]
  rw [List.nodup_append]
  refine ⟨h, List.nodup_singleton _, ?_⟩
  intro a ha hb
  simp only [List.map_cons, List.map_nil, List.mem_singleton] at hb
  subst hb
  exact hx ha

theorem countP_id_le_one (l : List GroceryItem) (x : String)
    (h : idsNodup l) : l.countP (fun it => it.id == x) ≤ 1 := by
  induction l with
  | nil => exact Nat.zero_le 1
  | cons a t ih =>
    simp only [idsNodup, List.map_cons, List.nodup_cons] at h
    simp only [List.countP_cons]
    by_cases ha : a.id = x
    · have hz : t.countP (fun it => it.id == x) = 0 := by
        rw [List.countP_eq_zero]
        intro b hb hbx
        apply h.1
        have : b.id = x := by simpa using hbx
        rw [ha, ← this]
        exact List.mem_map_of_mem _ hb
      simp [hz, ha]
    · have hb : ((a.id == x) : Bool) = false := by simpa using ha
      simp only [hb, if_false, Bool.false_eq_true, Nat.add_zero]
      exact ih h.2

theorem storeInv_map (f : GroceryItem → GroceryItem)
    (hid : ∀ it, (f it).id = it.id)
    (hed : ∀ it, (f it).isEditing = it.isEditing)
    (l : List GroceryItem) (h : StoreInv l) : StoreInv (l.map f) := by
  refine ⟨idsNodup_map f hid l h.1, ?_⟩
  unfold editingCount
  rw [countP_map_eq _ f hed l]
  exact h.2

theorem storeInv_patch (tid : String) (f : GroceryItem → GroceryItem)
    (hid : ∀ it, (f it).id = it.id)
    (hed : ∀ it, (f it).isEditing = it.isEditing)
    (l : List GroceryItem) (h : StoreInv l) : StoreInv (patchItem tid f l) := by
  unfold patchItem
  apply storeInv_map _ ?_ ?_ l h
  · intro it
    by_cases hc : it.id = tid
    · simp [hc, hid]
    · simp [hc]
  · intro it
    by_cases hc : it.id = tid
    · simp [hc, hed]
    · simp [hc]

theorem storeInv_suggestionStart (s : AppState) (tid nm : String)
    (h : StoreInv s.items) : StoreInv (getHealthSuggestionStart s tid nm).1.items := by
  unfold getHealthSuggestionStart
  by_cases hk : jsTruthy s.apiKey = true
  · simp only [if_pos hk]
    refine storeInv_patch tid _ ?_ ?_ s.items h <;> intro it <;> rfl
  · simp only [if_neg hk]
    exact h

theorem storeInv_imageStart (s : AppState) (tid nm : String)
    (h : StoreInv s.items) : StoreInv (getItemImageStart s tid nm).1.items := by
  unfold getItemImageStart
  by_cases hk : jsTruthy s.pexelsApiKey = true
  · simp only [if_pos hk]
    refine storeInv_patch tid _ ?_ ?_ s.items h <;> intro it <;> rfl
  · simp only [if_neg hk]
    exact h

theorem storeInv_imageComplete (tid : String) (ri : ImageResponse)
    (l : List GroceryItem) (h : StoreInv l) :
    StoreInv (getItemImageComplete tid ri l) := by
  cases ri with
  | failure =>
    simp only [getItemImageComplete]
    refine storeInv_patch tid _ ?_ ?_ l h <;> intro it <;> rfl
  | success u =>
    by_cases hu : jsTruthy u = true
    · simp only [getItemImageComplete, if_pos hu]
      refine storeInv_patch tid _ ?_ ?_ l h <;> intro it <;> rfl
    · simp only [getItemImageComplete, if_neg hu]
      refine storeInv_patch tid _ ?_ ?_ l h <;> intro it <;> rfl

theorem storeInv_suggestionComplete (tid : String) (rs : SuggestionResponse)
    (l : List GroceryItem) (h : StoreInv l) :
    StoreInv (getHealthSuggestionComplete tid rs l) := by
  cases rs with
  | failure =>
    simp only [getHealthSuggestionComplete]
    refine storeInv_patch tid _ ?_ ?_ l h <;> intro it <;> rfl
  | success c =>
    cases c with
    | none => exact h
    | some c =>
      by_cases hc : (c == "") = true
      · simp only [getHealthSuggestionComplete, if_pos hc]
        exact h
      · simp only [getHealthSuggestionComplete, if_neg hc]
        refine storeInv_patch tid _ ?_ ?_ l h <;> intro it <;> rfl

theorem storeInv_replace (s : AppState) (tid : String)
    (h : StoreInv s.items) : StoreInv (replaceFoodItem s tid).1.items := by
  cases hf : s.items.find? (fun i => i.id == tid) with
  | none => simpa only [replaceFoodItem, hf] using h
  | some item =>
    cases hs : item.healthSuggestion with
    | none => simpa only [replaceFoodItem, hf, hs] using h
    | some alt =>
      by_cases ha : (alt == "") = true
      · simpa only [replaceFoodItem, hf, hs, if_pos ha] using h
      · simp only [replaceFoodItem, hf, hs, if_neg ha]
        apply storeInv_imageStart
        refine storeInv_map _ ?_ ?_ s.items h <;> intro it <;>
          by_cases hc : (it.id == tid && jsTruthy it.healthSuggestion) = true <;>
            simp [hc]

theorem reachableW_storeInv (P : SuggestionResponse → Prop)
    (Q : AppState → Nat → Prop) (hQ : ∀ s now, Q s now → freshAdd s now)
    (s : AppState) (h : ReachableW P Q s) : StoreInv s.items := by
  induction h with
  | init k p =>
    exact ⟨List.nodup_nil, Nat.zero_le 1⟩
  | @addItem s now h hq ih =>
    by_cases hat : (jsTrim s.inputText == "") = true
    · simp only [addItem, if_pos hat]
      exact ih
    · simp only [addItem, if_neg hat]
      apply storeInv_imageStart
      apply storeInv_suggestionStart
      refine ⟨?_, ?_⟩
      · apply idsNodup_append_fresh _ _ ih.1
        exact hQ s now hq
      · unfold editingCount
        rw [List.countP_append]
        have hz : List.countP (fun it => it.isEditing)
            [mkNewItem (toString now) (jsTrim s.inputText)] = 0 := by
          simp [List.countP_cons, mkNewItem]
        rw [hz]
        simpa [editingCount] using ih.2
  | @deleteItem s tid h ih =>
    refine ⟨idsNodup_filter _ _ ih.1, ?_⟩
    unfold deleteItem editingCount
    calc (s.items.filter (fun item => item.id != tid)).countP (fun it => it.isEditing)
        ≤ s.items.countP (fun it => it.isEditing) :=
          (List.filter_sublist s.items).countP_le _
      _ ≤ 1 := ih.2
  | @startEditing s tid h ih =>
    refine ⟨?_, ?_⟩
    · refine idsNodup_map _ ?_ s.items ih.1
      intro it
      by_cases hc : it.id = tid <;> simp [hc]
    · unfold startEditing editingCount
      have hmap : (s.items.map (fun item =>
          if item.id == tid then { item with isEditing := true }
          else { item with isEditing := false })).countP (fun it => it.isEditing)
          = s.items.countP (fun it => it.id == tid) := by
        induction s.items with
        | nil => rfl
        | cons a t iht =>
          simp only [List.map_cons, List.countP_cons, iht]
          by_cases hc : a.id = tid <;> simp [hc]
      rw [hmap]
      exact countP_id_le_one s.items tid ih.1
  | @saveEdit s tid h ih =>
    by_cases hat : (jsTrim s.editText == "") = true
    · simp only [saveEdit, if_pos hat]
      exact ih
    · simp only [saveEdit, if_neg hat]
      refine ⟨?_, ?_⟩
      · refine idsNodup_map _ ?_ s.items ih.1
        intro it
        by_cases hc : it.id = tid <;> simp [hc]
      · unfold editingCount
        refine Nat.le_trans (countP_map_le _ _ ?_ s.items) ih.2
        intro it hit
        by_cases hc : it.id = tid
        · simp [hc] at hit
        · simpa [hc] using hit
  | @dismissSuggestion s tid h ih =>
    refine storeInv_patch tid _ ?_ ?_ s.items ih <;> intro it <;> rfl
  | @replaceFoodItem s tid h ih => exact storeInv_replace s tid ih
  | @suggestionStart s tid nm h ih => exact storeInv_suggestionStart s tid nm ih
  | @imageStart s tid nm h ih => exact storeInv_imageStart s tid nm ih
  | @suggestionComplete s tid resp h hP ih =>
    exact storeInv_suggestionComplete tid resp s.items ih
  | @imageComplete s tid resp h ih =>
    exact storeInv_imageComplete tid resp s.items ih
  | @setInput s t h ih => exact ih
  | @setEditText s t h ih => exact ih
  | @setKeys s k p h ih => exact ih

theorem invSV_map (f : GroceryItem → GroceryItem)
    (hf : ∀ it, (it.showingSuggestion = true → it.healthSuggestion ≠ none) →
      ((f it).showingSuggestion = true → (f it).healthSuggestion ≠ none))
    (l : List GroceryItem) (h : invariantSV l) : invariantSV (l.map f) := by
  intro it hit
  rcases List.mem_map.mp hit with ⟨a, ha, rfl⟩
  exact hf a (h a ha)

theorem invSV_patch (tid : String) (f : GroceryItem → GroceryItem)
    (hf : ∀ it, (it.showingSuggestion = true → it.healthSuggestion ≠ none) →
      ((f it).showingSuggestion = true → (f it).healthSuggestion ≠ none))
    (l : List GroceryItem) (h : invariantSV l) : invariantSV (patchItem tid f l) := by
  unfold patchItem
  refine invSV_map _ ?_ l h
  intro it h1
  by_cases hc : it.id = tid
  · simp only [hc, beq_self_eq_true, if_true]
    exact hf it h1
  · have hb : ((it.id == tid) : Bool) = false := by simpa using hc
    simp only [hb, Bool.false_eq_true, if_false]
    exact h1

theorem invSV_append (l1 l2 : List GroceryItem)
    (h1 : invariantSV l1) (h2 : invariantSV l2) : invariantSV (l1 ++ l2) := by
  intro it hit
  rcases List.mem_append.mp hit with hm | hm
  · exact h1 it hm
  · exact h2 it hm

theorem parseSuggestion_alt_isSome (c : String)
    (hl : (jsSplitLines c).filter (fun line => jsTrim line != "") ≠ []) :
    (parseSuggestion c).1 ≠ none := by
  unfold parseSuggestion
  cases hc : (jsSplitLines c).filter (fun line => jsTrim line != "") with
  | nil => exact absurd hc hl
  | cons a t => simp [hc]

theorem invSV_suggestionComplete (tid : String) (rs : SuggestionResponse)
    (l : List GroceryItem) (hP : contentOk rs) (h : invariantSV l) :
    invariantSV (getHealthSuggestionComplete tid rs l) := by
  cases rs with
  | failure =>
    simp only [getHealthSuggestionComplete]
    refine invSV_patch tid _ ?_ l h
    intro it h1
    exact h1
  | success c =>
    cases c with
    | none => exact h
    | some c =>
      by_cases hc : (c == "") = true
      · simp only [getHealthSuggestionComplete, if_pos hc]
        exact h
      · simp only [getHealthSuggestionComplete, if_neg hc]
        have hP2 : c = "" ∨ (jsSplitLines c).filter (fun line => jsTrim line != "") ≠ [] := hP
        have hlines : (jsSplitLines c).filter (fun line => jsTrim line != "") ≠ [] := by
          rcases hP2 with hP2 | hP2
          · exact absurd hP2 (by simpa using hc)
          · exact hP2
        refine invSV_patch tid _ ?_ l h
        intro it h1 hshow
        exact parseSuggestion_alt_isSome c hlines

theorem invSV_imageComplete (tid : String) (ri : ImageResponse)
    (l : List GroceryItem) (h : invariantSV l) :
    invariantSV (getItemImageComplete tid ri l) := by
  cases ri with
  | failure =>
    simp only [getItemImageComplete]
    refine invSV_patch tid _ ?_ l h
    intro it h1
    exact h1
  | success u =>
    by_cases hu : jsTruthy u = true
    · simp only [getItemImageComplete, if_pos hu]
      refine invSV_patch tid _ ?_ l h
      intro it h1
      exact h1
    · simp only [getItemImageComplete, if_neg hu]
      refine invSV_patch tid _ ?_ l h
      intro it h1
      exact h1

theorem invSV_suggestionStart (s : AppState) (tid nm : String)
    (h : invariantSV s.items) : invariantSV (getHealthSuggestionStart s tid nm).1.items := by
  unfold getHealthSuggestionStart
  by_cases hk : jsTruthy s.apiKey = true
  · simp only [if_pos hk]
    refine invSV_patch tid _ ?_ s.items h
    intro it h1
    exact h1
  · simp only [if_neg hk]
    exact h

theorem invSV_imageStart (s : AppState) (tid nm : String)
    (h : invariantSV s.items) : invariantSV (getItemImageStart s tid nm).1.items := by
  unfold getItemImageStart
  by_cases hk : jsTruthy s.pexelsApiKey = true
  · simp only [if_pos hk]
    refine invSV_patch tid _ ?_ s.items h
    intro it h1
    exact h1
  · simp only [if_neg hk]
    exact h

theorem invSV_replace (s : AppState) (tid : String)
    (h : invariantSV s.items) : invariantSV (replaceFoodItem s tid).1.items := by
  cases hf : s.items.find? (fun i => i.id == tid) with
  | none => simpa only [replaceFoodItem, hf] using h
  | some item =>
    cases hs : item.healthSuggestion with
    | none => simpa only [replaceFoodItem, hf, hs] using h
    | some alt =>
      by_cases ha : (alt == "") = true
      · simpa only [replaceFoodItem, hf, hs, if_pos ha] using h
      · simp only [replaceFoodItem, hf, hs, if_neg ha]
        apply invSV_imageStart
        refine invSV_map _ ?_ s.items h
        intro it h1
        by_cases hc : (it.id == tid && jsTruthy it.healthSuggestion) = true
        · simp only [hc, if_true]
          intro hfalse
          cases hfalse
        · simp only [hc, Bool.false_eq_true, if_false]
          exact h1

theorem reachableW_invSV (P : SuggestionResponse → Prop)
    (Q : AppState → Nat → Prop) (hP : ∀ resp, P resp → contentOk resp)
    (s : AppState) (h : ReachableW P Q s) : invariantSV s.items := by
  induction h with
  | init k p =>
    intro it hit
    cases hit
  | @addItem s now h hq ih =>
    by_cases hat : (jsTrim s.inputText == "") = true
    · simp only [addItem, if_pos hat]
      exact ih
    · simp only [addItem, if_neg hat]
      apply invSV_imageStart
      apply invSV_suggestionStart
      refine invSV_append _ _ ih ?_
      intro it hit
      rcases List.mem_singleton.mp hit with rfl
      intro hshow
      cases hshow
  | @deleteItem s tid h ih =>
    intro it hit
    exact ih it (List.mem_of_mem_filter hit)
  | @startEditing s tid h ih =>
    refine invSV_map _ ?_ s.items ih
    intro it h1
    by_cases hc : it.id = tid
    · simp only [hc, beq_self_eq_true, if_true]
      exact h1
    · have hb : ((it.id == tid) : Bool) = false := by simpa using hc
      simp only [hb, Bool.false_eq_true, if_false]
      exact h1
  | @saveEdit s tid h ih =>
    by_cases hat : (jsTrim s.editText == "") = true
    · simp only [saveEdit, if_pos hat]
      exact ih
    · simp only [saveEdit, if_neg hat]
      refine invSV_map _ ?_ s.items ih
      intro it h1
      by_cases hc : it.id = tid
      · simp only [hc, beq_self_eq_true, if_true]
        exact h1
      · have hb : ((it.id == tid) : Bool) = false := by simpa using hc
        simp only [hb, Bool.false_eq_true, if_false]
        exact h1
  | @dismissSuggestion s tid h ih =>
    refine invSV_patch tid _ ?_ s.items ih
    intro it h1 hshow
    cases hshow
  | @replaceFoodItem s tid h ih => exact invSV_replace s tid ih
  | @suggestionStart s tid nm h ih => exact invSV_suggestionStart s tid nm ih
  | @imageStart s tid nm h ih => exact invSV_imageStart s tid nm ih
  | @suggestionComplete s tid resp h hp ih =>
    exact invSV_suggestionComplete tid resp s.items (hP resp hp) ih
  | @imageComplete s tid resp h ih =>
    exact invSV_imageComplete tid resp s.items ih
  | @setInput s t h ih => exact ih
  | @setEditText s t h ih => exact ih
  | @setKeys s k p h ih => exact ih

/-- Claim C6 counterexample: ids come from `Date.now().toString()`, so two
adds in the same millisecond create two items with the same id; `startEditing`
on that id then switches both to editing, so a reachable state has two items
with `isEditing = true`. -/
theorem claim6_counterexample :
    Reachable collideState3 ∧ ¬ editingCount collideState3.items ≤ 1 := by
  constructor
  · exact ReachableW.startEditing "0"
      (ReachableW.addItem 0
        (ReachableW.setInput "Bread"
          (ReachableW.addItem 0
            (ReachableW.setInput "Milk"
              (ReachableW.init (some "k") (some "p")))
            trivial))
        trivial)
  · unfold editingCount collideState3 collideState2 collideState1
    decide

/-- Claim C6 amended: provided every add happens at a clock millisecond
whose string differs from all current ids (so ids stay pairwise distinct), at
most one item is in editing mode in every reachable state; and `beginEdit`
(`startEditing`) leaves every item with `isEditing` equal to whether its id
matches the target — the target edits, the previously editing item and all
others do not. -/
theorem claim6_single_editing_amended :
    (∀ s, ReachableFresh s → editingCount s.items ≤ 1)
    ∧ (∀ (s : AppState) (x : String), ∀ it ∈ (startEditing s x).items,
        it.isEditing = (it.id == x)) := by
  constructor
  · intro s h
    exact (reachableW_storeInv _ _ (fun _ _ hq => hq) s h).2
  · intro s x it hit
    simp only [startEditing] at hit
    rcases List.mem_map.mp hit with ⟨a, ha, rfl⟩
    by_cases hc : a.id = x
    · simp [hc]
    · simp [hc]

theorem claim6_witness :
    ReachableFresh editChain
    ∧ editingCount editChain.items ≤ 1
    ∧ editedItem ∈ (startEditing collideState1 "0").items
    ∧ editedItem.isEditing = (editedItem.id == "0") := by
  have hm : editedItem ∈ (startEditing collideState1 "0").items := by
    unfold editedItem collideState1
    decide
  have hr : ReachableFresh editChain :=
    ReachableW.startEditing "0"
      (ReachableW.addItem 0
        (ReachableW.setInput "Milk" (ReachableW.init (some "k") (some "p")))
        (by unfold freshAdd; decide))
  exact ⟨hr, claim6_single_editing_amended.1 editChain hr, hm,
    claim6_single_editing_amended.2 collideState1 "0" editedItem hm⟩

/-- Claim C9 counterexample: `addItem` ids are `Date.now().toString()`; two
adds at the same millisecond (clock value 0 twice) produce a reachable state
whose two items both have id `"0"`, refuting "generates a fresh id distinct
from the id of every item ever created". -/
theorem claim9_counterexample :
    Reachable collideState2
    ∧ collideState2.items.map (fun it => it.id) = ["0", "0"]
    ∧ ¬ idsNodup collideState2.items := by
  refine ⟨?_, ?_, ?_⟩
  · exact ReachableW.addItem 0
      (ReachableW.setInput "Bread"
        (ReachableW.addItem 0
          (ReachableW.setInput "Milk"
            (ReachableW.init (some "k") (some "p")))
          trivial))
      trivial
  · unfold collideState2 collideState1
    decide
  · unfold idsNodup collideState2 collideState1
    decide

theorem patchItem_append_last (tid : String) (f : GroceryItem → GroceryItem)
    (l : List GroceryItem) (x : GroceryItem)
    (hl : ∀ it ∈ l, it.id ≠ tid) (hx : x.id = tid) :
    patchItem tid f (l ++ [x]) = l ++ [f x] := by
  unfold patchItem
  rw [List.map_append]
  have h1 : l.map (fun item => if item.id == tid then f item else item) = l := by
    have h2 := patchItem_absent tid f l hl
    simpa [patchItem] using h2
  rw [h1]
  simp [hx]

/-- Claim C9 amended: provided each add happens at a millisecond whose
string differs from every current id, all reachable states have pairwise
distinct ids; and a non-blank add appends exactly one item at the end of the
collection carrying the timestamp id, the trimmed name, `isEditing = false`
and empty suggestion/reason/image fields, with the pending flags set by the
immediately dispatched enrichment according to which credentials are
configured, and dispatches those enrichment requests for the new id. -/
theorem claim9_add_fresh_amended :
    (∀ s, ReachableFresh s → idsNodup s.items)
    ∧ (∀ (s : AppState) (now : Nat),
        jsTrim s.inputText ≠ "" →
        toString now ∉ s.items.map (fun it => it.id) →
        (addItem s now).1.items
          = s.items ++ [{ mkNewItem (toString now) (jsTrim s.inputText) with
              isLoadingSuggestion := jsTruthy s.apiKey,
              isLoadingImage := jsTruthy s.pexelsApiKey }]
        ∧ (addItem s now).2
          = (if jsTruthy s.apiKey
              then [Effect.suggestionRequest (toString now) (jsTrim s.inputText)] else [])
            ++ (if jsTruthy s.pexelsApiKey
              then [Effect.imageRequest (toString now) (jsTrim s.inputText)] else [])) := by
  constructor
  · intro s h
    exact (reachableW_storeInv _ _ (fun _ _ hq => hq) s h).1
  · intro s now hne hfresh
    have hat : ¬((jsTrim s.inputText == "") = true) := by simpa using hne
    have hl : ∀ it ∈ s.items, it.id ≠ toString now := by
      intro it hit heq
      exact hfresh (heq ▸ List.mem_map_of_mem _ hit)
    by_cases hk1 : jsTruthy s.apiKey = true
    · by_cases hk2 : jsTruthy s.pexelsApiKey = true
      · constructor
        · simp only [addItem, if_neg hat, getHealthSuggestionStart, if_pos hk1,
            getItemImageStart, if_pos hk2]
          rw [patchItem_append_last _ _ _ _ hl rfl]
          rw [patchItem_append_last _ _ _ _ hl rfl]
          simp [mkNewItem, hk1, hk2]
        · simp only [addItem, if_neg hat, getHealthSuggestionStart, if_pos hk1,
            getItemImageStart, if_pos hk2]
      · constructor
        · simp only [addItem, if_neg hat, getHealthSuggestionStart, if_pos hk1,
            getItemImageStart, if_neg hk2]
          rw [patchItem_append_last _ _ _ _ hl rfl]
          simp only [Bool.not_eq_true] at hk2
          simp [mkNewItem, hk1, hk2]
        · simp only [addItem, if_neg hat, getHealthSuggestionStart, if_pos hk1,
            getItemImageStart, if_neg hk2]
    · by_cases hk2 : jsTruthy s.pexelsApiKey = true
      · constructor
        · simp only [addItem, if_neg hat, getHealthSuggestionStart, if_neg hk1,
            getItemImageStart, if_pos hk2]
          rw [patchItem_append_last _ _ _ _ hl rfl]
          simp only [Bool.not_eq_true] at hk1
          simp [mkNewItem, hk1, hk2]
        · simp only [addItem, if_neg hat, getHealthSuggestionStart, if_neg hk1,
            getItemImageStart, if_pos hk2]
      · constructor
        · simp only [addItem, if_neg hat, getHealthSuggestionStart, if_neg hk1,
            getItemImageStart, if_neg hk2]
          simp only [Bool.not_eq_true] at hk1 hk2
          simp [mkNewItem, hk1, hk2]
        · simp only [addItem, if_neg hat, getHealthSuggestionStart, if_neg hk1,
            getItemImageStart, if_neg hk2]

theorem claim9_witness :
    (jsTrim freshAddState.inputText ≠ ""
      ∧ toString 7 ∉ freshAddState.items.map (fun it => it.id))
    ∧ idsNodup (initialState none none).items
    ∧ (addItem freshAddState 7).1.items
        = freshAddState.items ++ [{ mkNewItem (toString 7) (jsTrim freshAddState.inputText) with
            isLoadingSuggestion := jsTruthy freshAddState.apiKey,
            isLoadingImage := jsTruthy freshAddState.pexelsApiKey }]
    ∧ (addItem freshAddState 7).2
        = (if jsTruthy freshAddState.apiKey
            then [Effect.suggestionRequest (toString 7) (jsTrim freshAddState.inputText)] else [])
          ++ (if jsTruthy freshAddState.pexelsApiKey
            then [Effect.imageRequest (toString 7) (jsTrim freshAddState.inputText)] else []) := by
  have h := claim9_add_fresh_amended.2 freshAddState 7 (by decide) (by decide)
  exact ⟨⟨by decide, by decide⟩,
    claim9_add_fresh_amended.1 (initialState none none) (ReachableW.init none none),
    h.1, h.2⟩

/-- Claim C5 counterexample: a reachable state violating the invariant
"`suggestionVisible = true` implies `suggestion` is present": a suggestion
fetch completing with the truthy but all-blank content `" "` patches
`showingSuggestion := true` while the parsed alternative is `none`. -/
theorem claim5_counterexample :
    Reachable blankChain ∧ ¬ invariantSV blankChain.items := by
  constructor
  · exact ReachableW.suggestionComplete "0" (SuggestionResponse.success (some " "))
      (ReachableW.addItem 0
        (ReachableW.setInput "Milk" (ReachableW.init (some "k") (some "p")))
        trivial)
      trivial
  · unfold invariantSV blankChain collideState1
    decide

/-- Claim C5 amended: in every state reachable while each delivered
suggestion-completion content is absent, empty, or contains at least one
non-blank line, every item with `showingSuggestion = true` has a present
`healthSuggestion`; every operation other than a blank-content suggestion
completion preserves the implication unconditionally. -/
theorem claim5_visible_needs_present_amended (s : AppState)
    (h : ReachableParsed s) : invariantSV s.items :=
  reachableW_invSV contentOk _ (fun _ hp => hp) s h

theorem claim5_witness :
    ReachableParsed parsedChain ∧ invariantSV parsedChain.items := by
  have hok : contentOk (SuggestionResponse.success (some "Oat milk\nLess sugar.")) := by
    have hne : (jsSplitLines "Oat milk\nLess sugar.").filter
        (fun line => jsTrim line != "") ≠ [] := by decide
    exact Or.inr hne
  have hr : ReachableParsed parsedChain :=
    ReachableW.suggestionComplete "0"
      (SuggestionResponse.success (some "Oat milk\nLess sugar."))
      (ReachableW.addItem 0
        (ReachableW.setInput "Milk" (ReachableW.init (some "k") (some "p")))
        trivial)
      hok
  exact ⟨hr, claim5_visible_needs_present_amended parsedChain hr⟩

end AteWell
